import Mathlib

/-!
Verification of the edge-embedding core of SevenNet
(`sevenn/nn/edge_embedding.py`).

The Python module computes geometric edge features for an equivariant
graph neural network: edge vectors and lengths under periodic boundary
conditions (with an optional differentiable strain perturbation for
stress), a Bessel radial basis, two cutoff envelopes, and an assembler
that combines them.

The shallow embedding below translates the tensor code into pure Lean
functions over real scalars:
* a per-atom position is `Vec3 := Fin 3 → ℝ`, a cell or strain matrix is
  `Mat3 := Matrix (Fin 3) (Fin 3) ℝ`;
* the shared graph-data dictionary (`AtomGraphDataType`) becomes the
  record `AtomGraphData`; keys that the code may find absent are
  `Option`-valued, and a failed dictionary lookup becomes `none`;
* `torch.einsum('ni,nij->nj', shift, cells)` is `Matrix.vecMul` per edge,
  `torch.bmm(pos.unsqueeze(-2), m).squeeze(-2)` is `Matrix.vecMul pos m`,
  `torch.linalg.norm(v, dim=-1)` is `Real.sqrt` of the sum of squares;
* per-atom / per-edge / per-graph tensors are lists, indexed with
  `List.getD` (valid data never hits the default).
-/

abbrev Vec3 := Fin 3 → ℝ

abbrev Mat3 := Matrix (Fin 3) (Fin 3) ℝ

/-- Euclidean norm of a 3-vector, as `torch.linalg.norm(edge_vec, dim=-1)`
computes per edge. -/
noncomputable def edgeNorm (v : Vec3) : ℝ :=
  Real.sqrt (∑ i, v i ^ 2)

/-- The `_strain` value written into the data dictionary: a per-graph
stack of 3×3 matrices in batched mode, a single 3×3 matrix in
single-graph mode, together with its `requires_grad` flag. -/
inductive StrainTensor where
  | batched (mats : List Mat3) (requiresGrad : Bool)
  | single (mat : Mat3) (requiresGrad : Bool)

/-- The graph-data dictionary (`AtomGraphDataType`).  `pos`, `cell`,
`cell_shift` and `edge_idx` are the always-present inputs; `batch` is the
`KEY.BATCH` entry (absent when no batch vector was stored); the remaining
fields model the keys this module writes (`KEY.EDGE_VEC`,
`KEY.EDGE_LENGTH`, `'_strain'`, `KEY.EDGE_EMBEDDING`, `KEY.EDGE_ATTR`),
absent until written.  `cell` is the `(-1, 3, 3)` view: one matrix per
graph. -/
structure AtomGraphData where
  pos : List Vec3
  cell : List Mat3
  cell_shift : List Vec3
  edge_idx : List ℕ × List ℕ
  batch : Option (List ℕ) := none
  edge_vec : Option (List Vec3) := none
  edge_length : Option (List ℝ) := none
  strain : Option StrainTensor := none
  edge_embedding : Option (List (List ℝ)) := none
  edge_attr : Option (List (List ℝ)) := none

/-- The symmetrization `0.5 * (strain + strain.transpose(-1, -2))` the
forward pass applies to the strain before it touches geometry. -/
noncomputable def symm3 (s : Mat3) : Mat3 :=
  (0.5 : ℝ) • (s + s.transpose)

/-- The strain perturbation of the batched branch:
`pos = pos + bmm(pos.unsqueeze(-2), sym_strain[batch]).squeeze(-2)` and
`cell = cell + bmm(cell, sym_strain)`, with `sym_strain` the
symmetrization of `strain`.  Returns the new positions and cells. -/
noncomputable def stressPerturbBatched (strain : List Mat3) (pos : List Vec3)
    (batch : List ℕ) (cells : List Mat3) : List Vec3 × List Mat3 :=
  (List.zipWith
    (fun p b => p + Matrix.vecMul p ((strain.map symm3).getD b 0)) pos batch,
   List.zipWith (fun c s => c + c * s) cells (strain.map symm3))

/-- The strain perturbation of the single-graph branch:
`pos = pos + mm(pos, sym_strain)` and `cell = cell + mm(cell, sym_strain)`. -/
noncomputable def stressPerturbSingle (strain : Mat3) (pos : List Vec3)
    (c : Mat3) : List Vec3 × Mat3 :=
  (pos.map (fun p => p + Matrix.vecMul p (symm3 strain)),
   c + c * symm3 strain)

/-- Computation of `edge_vec = pos[idx_dst] - pos[idx_src]` plus the einsum with
the cell: in batched mode each edge contracts its cell shift with
`cell[batch[idx_src]]`, in single-graph mode with the one cell matrix
(the head of the list). -/
noncomputable def computeEdgeVec (isBatch : Bool) (pos : List Vec3)
    (cells : List Mat3) (batch : List ℕ) (src dst : List ℕ)
    (shift : List Vec3) : List Vec3 :=
  (List.range src.length).map fun i =>
    pos.getD (dst.getD i 0) 0 - pos.getD (src.getD i 0) 0 +
      Matrix.vecMul (shift.getD i 0)
        (if isBatch then cells.getD (batch.getD (src.getD i 0) 0) 0
         else cells.headD 0)

/-- The `EdgePreprocess` module: `is_stress` and `_is_batch_data` are the
two construction-time flags. -/
structure EdgePreprocess where
  is_stress : Bool
  is_batch_data : Bool

/-- Forward pass of `EdgePreprocess`.  The `KEY.BATCH` lookup happens first and
unconditionally (`batch = data[KEY.BATCH]`), so a missing batch entry is
a failure (`none`) in every mode.  In stress mode a fresh all-zero strain
with `requires_grad_(True)` is stored under `'_strain'` and the
symmetrized strain perturbs positions and cells before the edge vectors
are formed; `KEY.EDGE_VEC` and `KEY.EDGE_LENGTH` are then written. -/
noncomputable def EdgePreprocess.forward (m : EdgePreprocess)
    (data : AtomGraphData) : Option AtomGraphData :=
  match data.batch with
  | none => none
  | some batch =>
    if m.is_stress then
      if m.is_batch_data then
        let strain := List.replicate (batch.foldr max 0 + 1) (0 : Mat3)
        let pc := stressPerturbBatched strain data.pos batch data.cell
        let ev := computeEdgeVec true pc.1 pc.2 batch data.edge_idx.1
          data.edge_idx.2 data.cell_shift
        some { data with
          strain := some (StrainTensor.batched strain true),
          edge_vec := some ev,
          edge_length := some (ev.map edgeNorm) }
      else
        let pc := stressPerturbSingle (0 : Mat3) data.pos (data.cell.headD 0)
        let ev := computeEdgeVec false pc.1 [pc.2] batch data.edge_idx.1
          data.edge_idx.2 data.cell_shift
        some { data with
          strain := some (StrainTensor.single 0 true),
          edge_vec := some ev,
          edge_length := some (ev.map edgeNorm) }
    else
      let ev := computeEdgeVec m.is_batch_data data.pos data.cell batch
        data.edge_idx.1 data.edge_idx.2 data.cell_shift
      some { data with
        edge_vec := some ev,
        edge_length := some (ev.map edgeNorm) }

/-- The `BesselBasis` module state after `__init__`. -/
structure BesselBasis where
  num_basis : ℕ
  prefactor : ℝ
  coeffs : List ℝ
  trainable_coeff : Bool

/-- Constructor of `BesselBasis`: `prefactor = 2.0 / cutoff_length` and
`coeffs = [n * π / cutoff_length for n in range(1, num_basis + 1)]`.
No argument validation is performed. -/
noncomputable def BesselBasis.init (num_basis : ℕ) (cutoff_length : ℝ)
    (trainable_coeff : Bool) : BesselBasis :=
  { num_basis := num_basis,
    prefactor := 2 / cutoff_length,
    coeffs := (List.range num_basis).map
      (fun k => ((k + 1 : ℕ) : ℝ) * Real.pi / cutoff_length),
    trainable_coeff := trainable_coeff }

/-- Forward pass of `BesselBasis`: `prefactor * sin(coeffs * r) / r`
componentwise over the basis dimension. -/
noncomputable def BesselBasis.forward (m : BesselBasis) (r : ℝ) : List ℝ :=
  m.coeffs.map fun c => m.prefactor * Real.sin (c * r) / r

/-- The `PolynomialCutoff` module state after `__init__`:
`coeff_p0 = (p+1)(p+2)/2`, `coeff_p1 = p(p+2)`, `coeff_p2 = p(p+1)/2`. -/
structure PolynomialCutoff where
  cutoff_length : ℝ
  p : ℕ
  coeff_p0 : ℝ
  coeff_p1 : ℝ
  coeff_p2 : ℝ

/-- Constructor of `PolynomialCutoff`. -/
noncomputable def PolynomialCutoff.init (p : ℕ) (cutoff_length : ℝ) :
    PolynomialCutoff :=
  { cutoff_length := cutoff_length,
    p := p,
    coeff_p0 := ((p : ℝ) + 1) * ((p : ℝ) + 2) / 2,
    coeff_p1 := (p : ℝ) * ((p : ℝ) + 2),
    coeff_p2 := (p : ℝ) * ((p : ℝ) + 1) / 2 }

/-- Forward pass of `PolynomialCutoff`: with `x = r / cutoff_length`,
`1 - coeff_p0 * x^p + coeff_p1 * x^(p+1) - coeff_p2 * x^(p+2)`. -/
noncomputable def PolynomialCutoff.forward (m : PolynomialCutoff) (r : ℝ) : ℝ :=
  1 - m.coeff_p0 * (r / m.cutoff_length) ^ m.p
    + m.coeff_p1 * (r / m.cutoff_length) ^ (m.p + 1)
    - m.coeff_p2 * (r / m.cutoff_length) ^ (m.p + 2)

/-- The `XPLORCutoff` module state after `__init__`: `r_on = cutoff_on`,
`r_cut = cutoff_length`.  No argument validation is performed. -/
structure XPLORCutoff where
  r_on : ℝ
  r_cut : ℝ

/-- Constructor of `XPLORCutoff`. -/
def XPLORCutoff.init (cutoff_on : ℝ) (cutoff_length : ℝ) : XPLORCutoff :=
  { r_on := cutoff_on, r_cut := cutoff_length }

/-- Forward pass of `XPLORCutoff`: `torch.where(r < r_on, 1, (r_cut²-r²)² *
(r_cut² + 2r² - 3 r_on²) / (r_cut² - r_on²)³)` with the squares spelled
as products, exactly as the code computes them. -/
noncomputable def XPLORCutoff.forward (m : XPLORCutoff) (r : ℝ) : ℝ :=
  if r < m.r_on then 1
  else (m.r_cut * m.r_cut - r * r) ^ 2
    * (m.r_cut * m.r_cut + 2 * (r * r) - 3 * (m.r_on * m.r_on))
    / (m.r_cut * m.r_cut - m.r_on * m.r_on) ^ 3

/-- The error the specification's taxonomy assigns to invalid
construction arguments.  The source never constructs it. -/
inductive ConfigurationError where
  | invalidConfig

/-- Total semantics of `BesselBasis.__init__` as a fallible Python call:
the body contains no `raise` and no `assert`, so it returns `ok` on every
input, valid or not. -/
noncomputable def BesselBasis.initE (num_basis : ℕ) (cutoff_length : ℝ)
    (trainable_coeff : Bool) : Except ConfigurationError BesselBasis :=
  Except.ok (BesselBasis.init num_basis cutoff_length trainable_coeff)

/-- Total semantics of `XPLORCutoff.__init__` as a fallible Python call:
the body contains no `raise` and no `assert`, so it returns `ok` on every
input, valid or not. -/
def XPLORCutoff.initE (cutoff_on : ℝ) (cutoff_length : ℝ) :
    Except ConfigurationError XPLORCutoff :=
  Except.ok (XPLORCutoff.init cutoff_on cutoff_length)

/-- The `EdgeEmbedding` module: the three injected sub-modules, modelled
by their forward functions (the spherical module is external `e3nn`
code, opaque here). -/
structure EdgeEmbedding where
  basis_function : ℝ → List ℝ
  cutoff_function : ℝ → ℝ
  spherical : Vec3 → List ℝ

/-- Forward pass of `EdgeEmbedding`: reads `KEY.EDGE_VEC` (failing if absent),
recomputes `r = torch.linalg.norm(edge_vec, dim=-1)`, overwrites
`KEY.EDGE_LENGTH` with it, writes `KEY.EDGE_EMBEDDING =
basis_function(r) * cutoff_function(r).unsqueeze(-1)` and
`KEY.EDGE_ATTR = spherical(edge_vec)`. -/
noncomputable def EdgeEmbedding.forward (m : EdgeEmbedding)
    (data : AtomGraphData) : Option AtomGraphData :=
  match data.edge_vec with
  | none => none
  | some rvec =>
    let r := rvec.map edgeNorm
    some { data with
      edge_length := some r,
      edge_embedding :=
        some (r.map fun ri => (m.basis_function ri).map
          fun x => x * m.cutoff_function ri),
      edge_attr := some (rvec.map m.spherical) }

/-! ## Helper lemmas -/

theorem zipWith_eq_map_left {α β γ : Type _} (f : α → β → γ) (g : α → γ) :
    ∀ (l : List α) (m : List β), l.length = m.length →
      (∀ y ∈ m, ∀ x, f x y = g x) → List.zipWith f l m = l.map g := by
  intro l
  induction l with
  | nil => intro m _ _; simp
  | cons x xs ih =>
    intro m hm hf
    cases m with
    | nil => simp at hm
    | cons y ys =>
      simp only [List.zipWith_cons_cons, List.map_cons]
      refine congrArg₂ _ (hf y (by simp) x) (ih ys (by simpa using hm) ?_)
      intro y' hy' x'
      exact hf y' (by simp [hy']) x'

theorem zipWith_replicate_eq_map {α β γ : Type _} (f : α → β → γ) (y : β) :
    ∀ (l : List α) (n : ℕ), l.length ≤ n →
      List.zipWith f l (List.replicate n y) = l.map (fun x => f x y) := by
  intro l
  induction l with
  | nil => intro n _; simp
  | cons x xs ih =>
    intro n hn
    cases n with
    | zero => simp at hn
    | succ k =>
      simp only [List.replicate_succ, List.zipWith_cons_cons, List.map_cons]
      exact congrArg _ (ih k (by simpa using hn))

theorem vecMul_smul_mat (v : Vec3) (a : ℝ) (M : Mat3) :
    Matrix.vecMul v (a • M) = a • Matrix.vecMul v M := by
  funext j
  simp only [Matrix.vecMul, Matrix.dotProduct, Matrix.smul_apply, smul_eq_mul,
    Pi.smul_apply]
  rw [Finset.mul_sum]
  exact Finset.sum_congr rfl fun i _ => by ring

theorem symm3_idem (s : Mat3) : symm3 (symm3 s) = symm3 s := by
  ext i j
  simp only [symm3, Matrix.smul_apply, Matrix.add_apply, Matrix.transpose_apply,
    smul_eq_mul]
  ring

theorem symm3_smul_one (a : ℝ) : symm3 (a • (1 : Mat3)) = a • (1 : Mat3) := by
  ext i j
  simp only [symm3, Matrix.smul_apply, Matrix.add_apply, Matrix.transpose_apply,
    Matrix.one_apply, smul_eq_mul]
  by_cases h : i = j
  · simp [h]; ring
  · have h' : ¬j = i := fun hji => h hji.symm
    simp [h, h']

theorem smul_one_perturb (p : Vec3) (a : ℝ) :
    p + Matrix.vecMul p (a • (1 : Mat3)) = (1 + a) • p := by
  rw [vecMul_smul_mat, Matrix.vecMul_one, add_smul, one_smul]

theorem mat_smul_one_perturb (c : Mat3) (a : ℝ) :
    c + c * (a • (1 : Mat3)) = (1 + a) • c := by
  rw [Matrix.mul_smul, mul_one, add_smul, one_smul]

/-! ## Claim C6: the XPLOR switching-window cutoff -/

/-- Claim C6: for every configuration with `0 < cutoff_on < cutoff_length`,
the switching-window cutoff returns exactly 1 for every `r < cutoff_on`,
returns `(rc²-r²)²·(rc²+2r²-3·r_on²)/(rc²-r_on²)³` for every
`r ≥ cutoff_on` (in particular on `cutoff_on ≤ r ≤ cutoff_length`), and
returns exactly 0 at `r = cutoff_length`. -/
theorem claim_C6_xplor_cutoff (r_on r_cut : ℝ) (h1 : 0 < r_on)
    (h2 : r_on < r_cut) :
    (∀ r : ℝ, r < r_on → (XPLORCutoff.init r_on r_cut).forward r = 1) ∧
    (∀ r : ℝ, r_on ≤ r →
      (XPLORCutoff.init r_on r_cut).forward r =
        (r_cut * r_cut - r * r) ^ 2
          * (r_cut * r_cut + 2 * (r * r) - 3 * (r_on * r_on))
          / (r_cut * r_cut - r_on * r_on) ^ 3) ∧
    (XPLORCutoff.init r_on r_cut).forward r_cut = 0 := by
  refine ⟨fun r hr => ?_, fun r hr => ?_, ?_⟩
  · simp [XPLORCutoff.forward, XPLORCutoff.init, if_pos hr]
  · simp [XPLORCutoff.forward, XPLORCutoff.init, if_neg (not_lt.mpr hr)]
  · have hno : ¬r_cut < r_on := not_lt.mpr h2.le
    simp [XPLORCutoff.forward, XPLORCutoff.init, hno, sub_self]

/-- Claim C6 witness: the cutoff window with `cutoff_on = 1`,
`cutoff_length = 2`. -/
theorem claim_C6_xplor_cutoff_witness :
    (∀ r : ℝ, r < 1 → (XPLORCutoff.init 1 2).forward r = 1) ∧
    (∀ r : ℝ, (1 : ℝ) ≤ r →
      (XPLORCutoff.init 1 2).forward r =
        (2 * 2 - r * r) ^ 2 * (2 * 2 + 2 * (r * r) - 3 * (1 * 1))
          / (2 * 2 - 1 * 1) ^ 3) ∧
    (XPLORCutoff.init 1 2).forward 2 = 0 :=
  claim_C6_xplor_cutoff 1 2 one_pos one_lt_two

/-! ## Claim C9: continuity of the XPLOR cutoff at the switch point -/

/-- Claim C9: with `0 < cutoff_on < cutoff_length`, the rational branch
of the switching window evaluates to exactly 1 at `r = cutoff_on`, so
although the branch condition is the strict `r < cutoff_on`, both
branches agree there and `forward cutoff_on = 1`. -/
theorem claim_C9_xplor_switch_continuity (r_on r_cut : ℝ) (h1 : 0 < r_on)
    (h2 : r_on < r_cut) :
    (r_cut * r_cut - r_on * r_on) ^ 2
        * (r_cut * r_cut + 2 * (r_on * r_on) - 3 * (r_on * r_on))
        / (r_cut * r_cut - r_on * r_on) ^ 3 = 1 ∧
    (XPLORCutoff.init r_on r_cut).forward r_on = 1 := by
  have hlt : r_on * r_on < r_cut * r_cut := mul_self_lt_mul_self h1.le h2
  have hne : r_cut * r_cut - r_on * r_on ≠ 0 := sub_ne_zero.mpr hlt.ne'
  have hexp : (r_cut * r_cut - r_on * r_on) ^ 2
      * (r_cut * r_cut + 2 * (r_on * r_on) - 3 * (r_on * r_on))
      / (r_cut * r_cut - r_on * r_on) ^ 3 = 1 := by
    field_simp
    ring
  refine ⟨hexp, ?_⟩
  show (if r_on < r_on then (1 : ℝ)
    else (r_cut * r_cut - r_on * r_on) ^ 2
      * (r_cut * r_cut + 2 * (r_on * r_on) - 3 * (r_on * r_on))
      / (r_cut * r_cut - r_on * r_on) ^ 3) = 1
  rw [if_neg (lt_irrefl r_on)]
  exact hexp

/-- Claim C9 witness: the switch point of the window with
`cutoff_on = 1`, `cutoff_length = 2`. -/
theorem claim_C9_xplor_switch_continuity_witness :
    (2 * 2 - 1 * 1 : ℝ) ^ 2 * (2 * 2 + 2 * (1 * 1) - 3 * (1 * 1))
        / (2 * 2 - 1 * 1) ^ 3 = 1 ∧
    (XPLORCutoff.init 1 2).forward 1 = 1 :=
  claim_C9_xplor_switch_continuity 1 2 one_pos one_lt_two

/-! ## Claim C10: the unconditional BATCH lookup -/

/-- Claim C10: every forward call of `EdgePreprocess` reads `KEY.BATCH`
before branching on its flags, so whatever the stress and batch flags
are — including single-graph mode with stress disabled, where the batch
values are never used — the call fails when the batch entry is absent. -/
theorem claim_C10_unconditional_batch_lookup (m : EdgePreprocess)
    (d : AtomGraphData) (h : d.batch = none) : m.forward d = none := by
  simp [EdgePreprocess.forward, h]

/-- Claim C10 witness: a single-graph, stress-off module still fails on
data with no batch entry. -/
theorem claim_C10_unconditional_batch_lookup_witness :
    EdgePreprocess.forward ⟨false, false⟩
      { pos := [], cell := [], cell_shift := [], edge_idx := ([], []) } =
      none :=
  claim_C10_unconditional_batch_lookup ⟨false, false⟩ _ rfl

/-! ## Claim C8: no configuration validation exists -/

/-- Claim C8 counterexample: the claim says invalid configurations —
`cutoff_on ≥ cutoff_length` for `XPLORCutoff`, `num_basis ≤ 0` for
`BesselBasis` — raise a `ConfigurationError` at the point of detection.
Neither `__init__` contains any check: at `cutoff_on = 2 >
cutoff_length = 1` and at `num_basis = 0` construction succeeds and the
constructed modules are fully usable, so no error is ever raised. -/
theorem claim_C8_counterexample :
    XPLORCutoff.initE 2 1 = Except.ok (XPLORCutoff.init 2 1) ∧
    (XPLORCutoff.init 2 1).r_on = 2 ∧
    (XPLORCutoff.init 2 1).r_cut = 1 ∧
    BesselBasis.initE 0 1 true = Except.ok (BesselBasis.init 0 1 true) ∧
    (BesselBasis.init 0 1 true).coeffs = [] ∧
    (BesselBasis.init 0 1 true).forward 5 = [] := by
  refine ⟨rfl, rfl, rfl, rfl, ?_, ?_⟩ <;>
    simp [BesselBasis.init, BesselBasis.forward]

/-- Claim C8 amended: no validation is performed at construction.  Both
constructors succeed on every configuration, including invalid ones, and
simply store their arguments (`BesselBasis` building `num_basis`
coefficients); no `ConfigurationError` value is ever produced. -/
theorem claim_C8_no_validation :
    (∀ (num_basis : ℕ) (cutoff_length : ℝ) (trainable_coeff : Bool),
      BesselBasis.initE num_basis cutoff_length trainable_coeff =
        Except.ok (BesselBasis.init num_basis cutoff_length trainable_coeff) ∧
      (BesselBasis.init num_basis cutoff_length trainable_coeff).num_basis =
        num_basis ∧
      (BesselBasis.init num_basis cutoff_length
        trainable_coeff).coeffs.length = num_basis) ∧
    (∀ cutoff_on cutoff_length : ℝ,
      XPLORCutoff.initE cutoff_on cutoff_length =
        Except.ok (XPLORCutoff.init cutoff_on cutoff_length) ∧
      (XPLORCutoff.init cutoff_on cutoff_length).r_on = cutoff_on ∧
      (XPLORCutoff.init cutoff_on cutoff_length).r_cut = cutoff_length) := by
  refine ⟨fun nb rc t => ⟨rfl, rfl, ?_⟩, fun con cl => ⟨rfl, rfl, rfl⟩⟩
  simp [BesselBasis.init]

/-! ## Claim C4: the Bessel radial basis -/

/-- Claim C4: for every `r > 0` and every basis index `n` with
`1 ≤ n ≤ num_basis`, the forward output at (0-based) slot `n - 1` equals
`(2/cutoff_length) · sin(n·π·r/cutoff_length) / r`, where the
coefficients `n·π/cutoff_length` were fixed at construction; and the
value is finite, bounded in magnitude by `2 / cutoff_length / r` (the
real-valued model has no NaN or Inf, and the bound certifies the value
stays finite as `sin` is bounded and `r > 0`). -/
theorem claim_C4_bessel_basis (num_basis : ℕ) (cutoff_length : ℝ)
    (trainable_coeff : Bool) (r : ℝ) (n : ℕ) (h1 : 1 ≤ n)
    (h2 : n ≤ num_basis) (hr : 0 < r) (hrc : 0 < cutoff_length) :
    ((BesselBasis.init num_basis cutoff_length trainable_coeff).forward
        r).getD (n - 1) 0 =
      2 / cutoff_length * Real.sin ((n : ℝ) * Real.pi * r / cutoff_length)
        / r ∧
    |((BesselBasis.init num_basis cutoff_length trainable_coeff).forward
        r).getD (n - 1) 0| ≤ 2 / cutoff_length / r := by
  have hn : n - 1 < num_basis := lt_of_lt_of_le (Nat.sub_lt h1 one_pos) h2
  have hlen : n - 1 <
      ((BesselBasis.init num_basis cutoff_length trainable_coeff).forward
        r).length := by
    simpa [BesselBasis.forward, BesselBasis.init] using hn
  have hval : ((BesselBasis.init num_basis cutoff_length
      trainable_coeff).forward r).getD (n - 1) 0 =
      2 / cutoff_length
        * Real.sin ((n : ℝ) * Real.pi / cutoff_length * r) / r := by
    rw [List.getD_eq_getElem _ _ hlen]
    simp only [BesselBasis.forward, BesselBasis.init, List.getElem_map,
      List.getElem_range]
    rw [Nat.sub_add_cancel h1]
  have harg : (n : ℝ) * Real.pi / cutoff_length * r =
      (n : ℝ) * Real.pi * r / cutoff_length := by ring
  constructor
  · rw [hval, harg]
  · rw [hval]
    have hpre : (0 : ℝ) < 2 / cutoff_length := by positivity
    rw [abs_div, abs_mul, abs_of_pos hpre, abs_of_pos hr]
    have hsin : |Real.sin ((n : ℝ) * Real.pi / cutoff_length * r)| ≤ 1 :=
      abs_le.mpr ⟨Real.neg_one_le_sin _, Real.sin_le_one _⟩
    have hnum : 2 / cutoff_length
        * |Real.sin ((n : ℝ) * Real.pi / cutoff_length * r)| ≤
        2 / cutoff_length := by
      simpa using mul_le_mul_of_nonneg_left hsin hpre.le
    exact (div_le_div_iff_of_pos_right hr).mpr hnum

/-- Claim C4 witness: one basis function, unit cutoff, evaluated at
`r = 1`. -/
theorem claim_C4_bessel_basis_witness :
    ((BesselBasis.init 1 1 true).forward 1).getD 0 0 =
      2 / 1 * Real.sin ((1 : ℕ) * Real.pi * 1 / 1) / 1 ∧
    |((BesselBasis.init 1 1 true).forward 1).getD 0 0| ≤ 2 / 1 / 1 :=
  claim_C4_bessel_basis 1 1 true 1 1 le_rfl le_rfl one_pos one_pos

/-! ## Claim C2: edge vectors with stress disabled -/

/-- Claim C2: with stress disabled, for every edge `i` the forward pass
outputs `edge_vec[i] = pos[dst i] - pos[src i] + cell_shift[i]` contracted
with the cell of the edge's owning graph (the source atom's graph
`batch[src i]` in batched mode, the single cell matrix otherwise),
`edge_length = ` the Euclidean norm of `edge_vec`, and leaves the strain
entry of the data exactly as it was (no strain key is written). -/
theorem claim_C2_edge_vec_no_stress (b : Bool) (d : AtomGraphData)
    (bt : List ℕ) (d2 : AtomGraphData) (hbt : d.batch = some bt)
    (h : EdgePreprocess.forward ⟨false, b⟩ d = some d2) :
    d2.strain = d.strain ∧
    ∃ ev : List Vec3, d2.edge_vec = some ev ∧
      d2.edge_length = some (ev.map edgeNorm) ∧
      ev.length = d.edge_idx.1.length ∧
      ∀ i, i < d.edge_idx.1.length →
        ev.getD i 0 =
          d.pos.getD (d.edge_idx.2.getD i 0) 0
            - d.pos.getD (d.edge_idx.1.getD i 0) 0
            + Matrix.vecMul (d.cell_shift.getD i 0)
              (if b then d.cell.getD (bt.getD (d.edge_idx.1.getD i 0) 0) 0
               else d.cell.headD 0) := by
  simp only [EdgePreprocess.forward, hbt, Bool.false_eq_true, if_false,
    Option.some.injEq] at h
  subst h
  refine ⟨rfl, computeEdgeVec b d.pos d.cell bt d.edge_idx.1 d.edge_idx.2
    d.cell_shift, rfl, rfl, by simp [computeEdgeVec], ?_⟩
  intro i hi
  have hlen : i < (computeEdgeVec b d.pos d.cell bt d.edge_idx.1
      d.edge_idx.2 d.cell_shift).length := by
    simpa [computeEdgeVec] using hi
  rw [List.getD_eq_getElem _ _ hlen]
  simp only [computeEdgeVec, List.getElem_map, List.getElem_range]

/-- Claim C2 witness: the empty single graph with an empty edge list. -/
theorem claim_C2_edge_vec_no_stress_witness :
    ({ pos := [], cell := [], cell_shift := [], edge_idx := ([], []),
        batch := some [], edge_vec := some [], edge_length := some [] } :
      AtomGraphData).strain =
      ({ pos := [], cell := [], cell_shift := [], edge_idx := ([], []),
         batch := some [] } : AtomGraphData).strain ∧
    ∃ ev : List Vec3,
      ({ pos := [], cell := [], cell_shift := [], edge_idx := ([], []),
         batch := some [], edge_vec := some [], edge_length := some [] } :
        AtomGraphData).edge_vec = some ev ∧
      ({ pos := [], cell := [], cell_shift := [], edge_idx := ([], []),
         batch := some [], edge_vec := some [], edge_length := some [] } :
        AtomGraphData).edge_length = some (ev.map edgeNorm) ∧
      ev.length = ([] : List ℕ).length ∧
      ∀ i, i < ([] : List ℕ).length →
        ev.getD i 0 =
          ([] : List Vec3).getD (([] : List ℕ).getD i 0) 0
            - ([] : List Vec3).getD (([] : List ℕ).getD i 0) 0
            + Matrix.vecMul (([] : List Vec3).getD i 0)
              (if false then
                ([] : List Mat3).getD (([] : List ℕ).getD i 0) 0
               else ([] : List Mat3).headD 0) :=
  claim_C2_edge_vec_no_stress false
    { pos := [], cell := [], cell_shift := [], edge_idx := ([], []),
      batch := some [] }
    [] _ rfl rfl

/-! ## Claim C3: the forward pass mutates neither positions nor cell -/

/-- Claim C3: in both stress modes and both batch modes, a successful
forward call of `EdgePreprocess` leaves the `pos`, `cell`, `cell_shift`,
`edge_idx`, `batch`, `edge_embedding` and `edge_attr` entries of the data
exactly as they were — the strain perturbation builds new position and
cell values instead of mutating the inputs — and with stress disabled
the strain entry is untouched as well, so the call only adds or
overwrites the `edge_vec`, `edge_length` and (stress mode only) strain
keys. -/
theorem claim_C3_no_input_mutation (m : EdgePreprocess)
    (d d2 : AtomGraphData) (h : m.forward d = some d2) :
    d2.pos = d.pos ∧ d2.cell = d.cell ∧ d2.cell_shift = d.cell_shift ∧
    d2.edge_idx = d.edge_idx ∧ d2.batch = d.batch ∧
    d2.edge_embedding = d.edge_embedding ∧ d2.edge_attr = d.edge_attr ∧
    (m.is_stress = false → d2.strain = d.strain) := by
  obtain ⟨s, b⟩ := m
  cases hbt : d.batch with
  | none => simp [EdgePreprocess.forward, hbt] at h
  | some bt =>
    cases s <;> cases b <;>
      simp only [EdgePreprocess.forward, hbt, Bool.false_eq_true, if_false,
        if_true, Option.some.injEq] at h <;>
      subst h <;> simp

/-- Claim C3 witness: a stress-off batched call on the empty graph. -/
theorem claim_C3_no_input_mutation_witness :
    ({ pos := [], cell := [], cell_shift := [], edge_idx := ([], []),
       batch := some [], edge_vec := some [], edge_length := some [] } :
      AtomGraphData).pos =
      ({ pos := [], cell := [], cell_shift := [], edge_idx := ([], []),
         batch := some [] } : AtomGraphData).pos ∧
    ({ pos := [], cell := [], cell_shift := [], edge_idx := ([], []),
       batch := some [], edge_vec := some [], edge_length := some [] } :
      AtomGraphData).cell =
      ({ pos := [], cell := [], cell_shift := [], edge_idx := ([], []),
         batch := some [] } : AtomGraphData).cell ∧
    ({ pos := [], cell := [], cell_shift := [], edge_idx := ([], []),
       batch := some [], edge_vec := some [], edge_length := some [] } :
      AtomGraphData).cell_shift =
      ({ pos := [], cell := [], cell_shift := [], edge_idx := ([], []),
         batch := some [] } : AtomGraphData).cell_shift ∧
    ({ pos := [], cell := [], cell_shift := [], edge_idx := ([], []),
       batch := some [], edge_vec := some [], edge_length := some [] } :
      AtomGraphData).edge_idx =
      ({ pos := [], cell := [], cell_shift := [], edge_idx := ([], []),
         batch := some [] } : AtomGraphData).edge_idx ∧
    ({ pos := [], cell := [], cell_shift := [], edge_idx := ([], []),
       batch := some [], edge_vec := some [], edge_length := some [] } :
      AtomGraphData).batch =
      ({ pos := [], cell := [], cell_shift := [], edge_idx := ([], []),
         batch := some [] } : AtomGraphData).batch ∧
    ({ pos := [], cell := [], cell_shift := [], edge_idx := ([], []),
       batch := some [], edge_vec := some [], edge_length := some [] } :
      AtomGraphData).edge_embedding =
      ({ pos := [], cell := [], cell_shift := [], edge_idx := ([], []),
         batch := some [] } : AtomGraphData).edge_embedding ∧
    ({ pos := [], cell := [], cell_shift := [], edge_idx := ([], []),
       batch := some [], edge_vec := some [], edge_length := some [] } :
      AtomGraphData).edge_attr =
      ({ pos := [], cell := [], cell_shift := [], edge_idx := ([], []),
         batch := some [] } : AtomGraphData).edge_attr ∧
    ((EdgePreprocess.mk false true).is_stress = false →
      ({ pos := [], cell := [], cell_shift := [], edge_idx := ([], []),
         batch := some [], edge_vec := some [], edge_length := some [] } :
        AtomGraphData).strain =
        ({ pos := [], cell := [], cell_shift := [], edge_idx := ([], []),
           batch := some [] } : AtomGraphData).strain) := by
  refine claim_C3_no_input_mutation ⟨false, true⟩
    { pos := [], cell := [], cell_shift := [], edge_idx := ([], []),
      batch := some [] }
    { pos := [], cell := [], cell_shift := [], edge_idx := ([], []),
      batch := some [], edge_vec := some [], edge_length := some [] }
    ?_
  simp [EdgePreprocess.forward, computeEdgeVec]

/-! ## Claim C7: the edge-embedding assembler -/

/-- Claim C7: for any injected basis, cutoff and spherical modules and
any data holding an `edge_vec`, the assembler recomputes `edge_length`
as the Euclidean norm of `edge_vec`, writes `edge_embedding` as the
radial basis of that length scaled elementwise by the scalar cutoff of
that length (broadcast over the basis dimension), and writes `edge_attr`
as the spherical encoding of `edge_vec`; and whenever the data came out
of an `EdgePreprocess` forward call, the recomputed `edge_length` equals
the value the preprocessor had stored for the same `edge_vec`. -/
theorem claim_C7_edge_embedding_assembler (B : ℝ → List ℝ) (C : ℝ → ℝ)
    (S : Vec3 → List ℝ) :
    (∀ (d : AtomGraphData) (rv : List Vec3), d.edge_vec = some rv →
      EdgeEmbedding.forward ⟨B, C, S⟩ d =
        some { d with
          edge_length := some (rv.map edgeNorm),
          edge_embedding := some (rv.map fun v =>
            (B (edgeNorm v)).map fun x => x * C (edgeNorm v)),
          edge_attr := some (rv.map S) }) ∧
    (∀ (m : EdgePreprocess) (d0 d1 d2 : AtomGraphData),
      m.forward d0 = some d1 →
      EdgeEmbedding.forward ⟨B, C, S⟩ d1 = some d2 →
      d2.edge_length = d1.edge_length) := by
  constructor
  · intro d rv h
    simp [EdgeEmbedding.forward, h, List.map_map, Function.comp]
  · intro m d0 d1 d2 h1 h2
    obtain ⟨s, b⟩ := m
    cases hbt : d0.batch with
    | none => simp [EdgePreprocess.forward, hbt] at h1
    | some bt =>
      cases s <;> cases b <;>
        simp only [EdgePreprocess.forward, hbt, Bool.false_eq_true, if_false,
          if_true, Option.some.injEq] at h1 <;>
        subst h1 <;>
        simp only [EdgeEmbedding.forward, Option.some.injEq] at h2 <;>
        subst h2 <;> rfl

/-- Claim C7 witness: the trivial injected modules on a data record with
an empty edge-vector list. -/
theorem claim_C7_edge_embedding_assembler_witness :
    EdgeEmbedding.forward ⟨fun _ => [], fun _ => 0, fun _ => []⟩
      { pos := [], cell := [], cell_shift := [], edge_idx := ([], []),
        edge_vec := some [] } =
      some { pos := [], cell := [], cell_shift := [], edge_idx := ([], []),
             edge_vec := some [], edge_length := some [],
             edge_embedding := some [], edge_attr := some [] } :=
  (claim_C7_edge_embedding_assembler (fun _ => []) (fun _ => 0)
    (fun _ => [])).1
    { pos := [], cell := [], cell_shift := [], edge_idx := ([], []),
      edge_vec := some [] } [] rfl

/-! ## Claim C1: the stress-mode strain machinery -/

theorem getD_replicate_of_lt {α : Type _} (x d : α) (n i : ℕ) (h : i < n) :
    (List.replicate n x).getD i d = x := by
  rw [List.getD_eq_getElem _ _ (by simpa using h)]
  simp

theorem getD_map_smul {M : Type _} [AddCommMonoid M] [Module ℝ M]
    (a : ℝ) (l : List M) (k : ℕ) :
    (l.map fun x => a • x).getD k 0 = a • l.getD k 0 := by
  induction l generalizing k with
  | nil => simp
  | cons x xs ih =>
    cases k with
    | zero => simp
    | succ j => simpa using ih j

/-- Unfolding of `computeEdgeVec` in batched mode. -/
theorem computeEdgeVec_batched (pos : List Vec3) (cells : List Mat3)
    (batch : List ℕ) (src dst : List ℕ) (shift : List Vec3) :
    computeEdgeVec true pos cells batch src dst shift =
      (List.range src.length).map fun i =>
        pos.getD (dst.getD i 0) 0 - pos.getD (src.getD i 0) 0 +
          Matrix.vecMul (shift.getD i 0)
            (cells.getD (batch.getD (src.getD i 0) 0) 0) := by
  simp [computeEdgeVec]

/-- Unfolding of `computeEdgeVec` in single-graph mode. -/
theorem computeEdgeVec_single (pos : List Vec3) (cells : List Mat3)
    (batch : List ℕ) (src dst : List ℕ) (shift : List Vec3) :
    computeEdgeVec false pos cells batch src dst shift =
      (List.range src.length).map fun i =>
        pos.getD (dst.getD i 0) 0 - pos.getD (src.getD i 0) 0 +
          Matrix.vecMul (shift.getD i 0) (cells.headD 0) := by
  simp [computeEdgeVec]

/-- Claim C1: with stress enabled, a forward call stores a fresh strain
under the strain key: all-zero, with gradient tracking on, of shape
`(numGraphs, 3, 3)` in batched mode (`numGraphs = max batch + 1`) and
`(3, 3)` in single mode.  The strain is symmetrized as `½(S + Sᵀ)`
before it perturbs geometry (the perturbation of a strain equals the
perturbation of its symmetrization), and substituting `strain = ε·I`
rescales every edge vector exactly by `(1 + ε)` — in particular by
`(1 + ε)` to first order — in both modes. -/
theorem claim_C1_stress_strain (ε : ℝ) (n : ℕ) (pos : List Vec3)
    (bt : List ℕ) (cells : List Mat3) (src dst : List ℕ)
    (shift : List Vec3) (c : Mat3) (strainB : List Mat3) (strainS : Mat3)
    (d : AtomGraphData) (hd : d.batch = some bt)
    (hbl : bt.length = pos.length) (hcl : cells.length = n)
    (hb : ∀ g ∈ bt, g < n) :
    Option.map AtomGraphData.strain (EdgePreprocess.forward ⟨true, true⟩ d) =
      some (some (StrainTensor.batched
        (List.replicate (bt.foldr max 0 + 1) 0) true)) ∧
    Option.map AtomGraphData.strain (EdgePreprocess.forward ⟨true, false⟩ d) =
      some (some (StrainTensor.single 0 true)) ∧
    stressPerturbBatched strainB pos bt cells =
      stressPerturbBatched (strainB.map symm3) pos bt cells ∧
    stressPerturbSingle strainS pos c =
      stressPerturbSingle (symm3 strainS) pos c ∧
    computeEdgeVec true
        (stressPerturbBatched (List.replicate n (ε • 1)) pos bt cells).1
        (stressPerturbBatched (List.replicate n (ε • 1)) pos bt cells).2
        bt src dst shift =
      (computeEdgeVec true pos cells bt src dst shift).map
        (fun v => (1 + ε) • v) ∧
    computeEdgeVec false
        (stressPerturbSingle (ε • 1) pos c).1
        [(stressPerturbSingle (ε • 1) pos c).2]
        bt src dst shift =
      (computeEdgeVec false pos [c] bt src dst shift).map
        (fun v => (1 + ε) • v) := by
  have hsym : (List.replicate n (ε • (1 : Mat3))).map symm3 =
      List.replicate n (ε • 1) := by
    rw [List.map_replicate, symm3_smul_one]
  refine ⟨?_, ?_, ?_, ?_, ?_, ?_⟩
  · simp [EdgePreprocess.forward, hd]
  · simp [EdgePreprocess.forward, hd]
  · have h3 : (strainB.map symm3).map symm3 = strainB.map symm3 := by
      rw [List.map_map]
      exact List.map_congr_left fun s _ => symm3_idem s
    simp only [stressPerturbBatched, h3]
  · simp only [stressPerturbSingle, symm3_idem]
  · have hpos : (stressPerturbBatched (List.replicate n (ε • 1)) pos bt
        cells).1 = pos.map (fun p => (1 + ε) • p) := by
      simp only [stressPerturbBatched, hsym]
      refine zipWith_eq_map_left _ _ pos bt hbl.symm ?_
      intro g hg p
      rw [getD_replicate_of_lt _ _ _ _ (hb g hg), smul_one_perturb]
    have hcell : (stressPerturbBatched (List.replicate n (ε • 1)) pos bt
        cells).2 = cells.map (fun cc => (1 + ε) • cc) := by
      simp only [stressPerturbBatched, hsym]
      rw [zipWith_replicate_eq_map _ _ cells n hcl.le]
      exact List.map_congr_left fun cc _ => mat_smul_one_perturb cc ε
    rw [hpos, hcell, computeEdgeVec_batched, computeEdgeVec_batched,
      List.map_map]
    apply List.map_congr_left
    intro i _
    simp only [Function.comp_apply]
    rw [getD_map_smul, getD_map_smul, getD_map_smul, vecMul_smul_mat,
      smul_add, smul_sub]
  · have hpos : (stressPerturbSingle (ε • 1) pos c).1 =
        pos.map (fun p => (1 + ε) • p) := by
      simp only [stressPerturbSingle, symm3_smul_one]
      exact List.map_congr_left fun p _ => smul_one_perturb p ε
    have hcell : (stressPerturbSingle (ε • 1) pos c).2 = (1 + ε) • c := by
      simp only [stressPerturbSingle, symm3_smul_one]
      exact mat_smul_one_perturb c ε
    rw [hpos, hcell, computeEdgeVec_single, computeEdgeVec_single,
      List.map_map]
    apply List.map_congr_left
    intro i _
    simp only [Function.comp_apply, List.headD_cons]
    rw [getD_map_smul, getD_map_smul, vecMul_smul_mat, smul_add, smul_sub]

/-- Claim C1 witness: the empty batch with `ε = 1`. -/
theorem claim_C1_stress_strain_witness :
    Option.map AtomGraphData.strain (EdgePreprocess.forward ⟨true, true⟩
      { pos := [], cell := [], cell_shift := [], edge_idx := ([], []),
        batch := some [] }) =
      some (some (StrainTensor.batched
        (List.replicate (([] : List ℕ).foldr max 0 + 1) 0) true)) ∧
    Option.map AtomGraphData.strain (EdgePreprocess.forward ⟨true, false⟩
      { pos := [], cell := [], cell_shift := [], edge_idx := ([], []),
        batch := some [] }) =
      some (some (StrainTensor.single 0 true)) ∧
    stressPerturbBatched [] [] [] [] =
      stressPerturbBatched (([] : List Mat3).map symm3) [] [] [] ∧
    stressPerturbSingle 0 [] 0 = stressPerturbSingle (symm3 0) [] 0 ∧
    computeEdgeVec true
        (stressPerturbBatched (List.replicate 0 ((1 : ℝ) • 1)) [] [] []).1
        (stressPerturbBatched (List.replicate 0 ((1 : ℝ) • 1)) [] [] []).2
        [] [] [] [] =
      (computeEdgeVec true [] [] [] [] [] []).map
        (fun v => ((1 : ℝ) + 1) • v) ∧
    computeEdgeVec false
        (stressPerturbSingle ((1 : ℝ) • 1) [] 0).1
        [(stressPerturbSingle ((1 : ℝ) • 1) [] 0).2]
        [] [] [] [] =
      (computeEdgeVec false [] [0] [] [] [] []).map
        (fun v => ((1 : ℝ) + 1) • v) :=
  claim_C1_stress_strain 1 0 [] [] [] [] [] [] 0 [] 0
    { pos := [], cell := [], cell_shift := [], edge_idx := ([], []),
      batch := some [] }
    rfl rfl rfl (by simp)

/-! ## Claim C5: the polynomial cutoff and its boundary smoothness -/

/-- First derivative of `PolynomialCutoff.forward`, in the exact shape
produced by the chain rule on each power of `r / cutoff_length`. -/
noncomputable def pcDeriv (p : ℕ) (rc r : ℝ) : ℝ :=
  0 - ((p : ℝ) + 1) * ((p : ℝ) + 2) / 2
      * ((p : ℝ) * (r / rc) ^ (p - 1) * (1 / rc))
    + (p : ℝ) * ((p : ℝ) + 2)
      * (((p + 1 : ℕ) : ℝ) * (r / rc) ^ (p + 1 - 1) * (1 / rc))
    - (p : ℝ) * ((p : ℝ) + 1) / 2
      * (((p + 2 : ℕ) : ℝ) * (r / rc) ^ (p + 2 - 1) * (1 / rc))

/-- Second derivative of `PolynomialCutoff.forward`. -/
noncomputable def pcDeriv2 (p : ℕ) (rc r : ℝ) : ℝ :=
  0 - ((p : ℝ) + 1) * ((p : ℝ) + 2) / 2
      * ((p : ℝ) * (((p - 1 : ℕ) : ℝ) * (r / rc) ^ (p - 1 - 1) * (1 / rc))
        * (1 / rc))
    + (p : ℝ) * ((p : ℝ) + 2)
      * (((p + 1 : ℕ) : ℝ)
        * (((p + 1 - 1 : ℕ) : ℝ) * (r / rc) ^ (p + 1 - 1 - 1) * (1 / rc))
        * (1 / rc))
    - (p : ℝ) * ((p : ℝ) + 1) / 2
      * (((p + 2 : ℕ) : ℝ)
        * (((p + 2 - 1 : ℕ) : ℝ) * (r / rc) ^ (p + 2 - 1 - 1) * (1 / rc))
        * (1 / rc))

theorem hasDerivAt_pc (p : ℕ) (rc r : ℝ) :
    HasDerivAt (fun x => (PolynomialCutoff.init p rc).forward x)
      (pcDeriv p rc r) r := by
  have hx : HasDerivAt (fun x : ℝ => x / rc) (1 / rc) r :=
    (hasDerivAt_id r).div_const rc
  exact (((hasDerivAt_const r (1 : ℝ)).sub
      ((hx.pow p).const_mul (((p : ℝ) + 1) * ((p : ℝ) + 2) / 2))).add
    ((hx.pow (p + 1)).const_mul ((p : ℝ) * ((p : ℝ) + 2)))).sub
    ((hx.pow (p + 2)).const_mul ((p : ℝ) * ((p : ℝ) + 1) / 2))

theorem deriv_pc (p : ℕ) (rc : ℝ) :
    deriv (fun x => (PolynomialCutoff.init p rc).forward x) = pcDeriv p rc :=
  funext fun r => (hasDerivAt_pc p rc r).deriv

theorem hasDerivAt_pcDeriv (p : ℕ) (rc r : ℝ) :
    HasDerivAt (fun x => pcDeriv p rc x) (pcDeriv2 p rc r) r := by
  have hx : HasDerivAt (fun x : ℝ => x / rc) (1 / rc) r :=
    (hasDerivAt_id r).div_const rc
  exact (((hasDerivAt_const r (0 : ℝ)).sub
      ((((hx.pow (p - 1)).const_mul ((p : ℝ))).mul_const (1 / rc)).const_mul
        (((p : ℝ) + 1) * ((p : ℝ) + 2) / 2))).add
    ((((hx.pow (p + 1 - 1)).const_mul (((p + 1 : ℕ) : ℝ))).mul_const
        (1 / rc)).const_mul ((p : ℝ) * ((p : ℝ) + 2)))).sub
    ((((hx.pow (p + 2 - 1)).const_mul (((p + 2 : ℕ) : ℝ))).mul_const
        (1 / rc)).const_mul ((p : ℝ) * ((p : ℝ) + 1) / 2))

/-- Claim C5: for every `p ≥ 1` and `cutoff_length > 0`, the polynomial
cutoff computes `f(r) = 1 − C0·(r/rc)^p + C1·(r/rc)^(p+1) −
C2·(r/rc)^(p+2)` with `C0 = (p+1)(p+2)/2`, `C1 = p(p+2)`,
`C2 = p(p+1)/2`, and consequently `f(0) = 1`, `f(rc) = 0`, and the first
and second derivatives of `f` vanish at `r = rc`. -/
theorem claim_C5_polynomial_cutoff (p : ℕ) (rc : ℝ) (hp : 1 ≤ p)
    (hrc : 0 < rc) :
    (∀ r : ℝ, (PolynomialCutoff.init p rc).forward r =
      1 - ((p : ℝ) + 1) * ((p : ℝ) + 2) / 2 * (r / rc) ^ p
        + (p : ℝ) * ((p : ℝ) + 2) * (r / rc) ^ (p + 1)
        - (p : ℝ) * ((p : ℝ) + 1) / 2 * (r / rc) ^ (p + 2)) ∧
    (PolynomialCutoff.init p rc).forward 0 = 1 ∧
    (PolynomialCutoff.init p rc).forward rc = 0 ∧
    deriv (fun x => (PolynomialCutoff.init p rc).forward x) rc = 0 ∧
    deriv (deriv (fun x => (PolynomialCutoff.init p rc).forward x)) rc =
      0 := by
  have hrc' : rc ≠ 0 := ne_of_gt hrc
  have hp0 : p ≠ 0 := Nat.one_le_iff_ne_zero.mp hp
  refine ⟨fun r => rfl, ?_, ?_, ?_, ?_⟩
  · show (1 : ℝ) - ((p : ℝ) + 1) * ((p : ℝ) + 2) / 2 * (0 / rc) ^ p
        + (p : ℝ) * ((p : ℝ) + 2) * (0 / rc) ^ (p + 1)
        - (p : ℝ) * ((p : ℝ) + 1) / 2 * (0 / rc) ^ (p + 2) = 1
    rw [zero_div, zero_pow hp0, zero_pow (Nat.succ_ne_zero p),
      zero_pow (Nat.succ_ne_zero (p + 1))]
    ring
  · show (1 : ℝ) - ((p : ℝ) + 1) * ((p : ℝ) + 2) / 2 * (rc / rc) ^ p
        + (p : ℝ) * ((p : ℝ) + 2) * (rc / rc) ^ (p + 1)
        - (p : ℝ) * ((p : ℝ) + 1) / 2 * (rc / rc) ^ (p + 2) = 0
    rw [div_self hrc']
    simp only [one_pow]
    ring
  · rw [deriv_pc]
    show pcDeriv p rc rc = 0
    unfold pcDeriv
    rw [div_self hrc']
    simp only [one_pow]
    push_cast
    field_simp
    ring
  · rw [deriv_pc, (hasDerivAt_pcDeriv p rc rc).deriv]
    unfold pcDeriv2
    rw [div_self hrc']
    simp only [one_pow]
    push_cast [Nat.cast_sub hp]
    field_simp
    ring

/-- Claim C5 witness: `p = 1`, `cutoff_length = 1`. -/
theorem claim_C5_polynomial_cutoff_witness :
    (∀ r : ℝ, (PolynomialCutoff.init 1 1).forward r =
      1 - ((1 : ℕ) + 1 : ℝ) * ((1 : ℕ) + 2 : ℝ) / 2 * (r / 1) ^ 1
        + ((1 : ℕ) : ℝ) * ((1 : ℕ) + 2 : ℝ) * (r / 1) ^ (1 + 1)
        - ((1 : ℕ) : ℝ) * ((1 : ℕ) + 1 : ℝ) / 2 * (r / 1) ^ (1 + 2)) ∧
    (PolynomialCutoff.init 1 1).forward 0 = 1 ∧
    (PolynomialCutoff.init 1 1).forward 1 = 0 ∧
    deriv (fun x => (PolynomialCutoff.init 1 1).forward x) 1 = 0 ∧
    deriv (deriv (fun x => (PolynomialCutoff.init 1 1).forward x)) 1 = 0 :=
  claim_C5_polynomial_cutoff 1 1 le_rfl one_pos
